import Mathlib

/-!
Shallow embedding of the orchestration/session layer of a multi-source
music/video download chat bot.

Sources embedded here: `handlers/search.py`, `handlers/download.py`,
`handlers/video.py`, `utils/keyboards.py`, `services/vk_service.py`.

Modelling conventions:
* Python dicts are insertion-ordered association lists
  (`List (κ × α)`); dict-key uniqueness shows up as a `Nodup`
  hypothesis where a proof needs it, and `d[k] = v` / `del d[k]` are
  update / filter on the list.
* `config.py` is not part of the sources, so configuration constants
  (`MAX_RESULTS_PER_PAGE`, `MAX_FILE_SIZE_MB`) are passed as
  parameters.
* Calls into third-party libraries (yt-dlp, vk_api, aiogram) are
  replaced by explicit environment records describing the outcome the
  library produced; the handlers' own control flow is translated
  branch by branch.
-/

namespace CoverBot

/-- A normalized track record as produced by the platform adapters and
stored in the search cache (the fields of the Python track dict that the
claims mention).  `pageIndex` models the mutable `page_index` key that
`show_search_results` (handlers/search.py, lines 210-211) writes into the
tracks of a displayed page; it is absent (`none`) until a page showing
the track has been rendered. -/
structure Track where
  id : String
  title : String
  artist : String
  duration : Nat
  url : String
  pageIndex : Option Nat := none
  deriving DecidableEq

/-- One value of `search_cache` (handlers/search.py, lines 96-101): the
cached track list, source, query and the precomputed page count. -/
structure CacheData where
  tracks : List Track
  source : String
  query : String
  total_pages : Nat
  deriving DecidableEq

/-- handlers/search.py, line 100:
`total_pages = (len(tracks) + MAX_RESULTS_PER_PAGE - 1) // MAX_RESULTS_PER_PAGE`.
The page size comes from `config.py` (not in the sources), so it is a
parameter here. -/
def totalPages (n pageSize : Nat) : Nat :=
  (n + pageSize - 1) / pageSize

/-- Python's list slice `l[a:b]` for `0 ≤ a ≤ b`. -/
def pySlice (l : List α) (a b : Nat) : List α :=
  (l.drop a).take (b - a)

/-- handlers/search.py, lines 204-207: the tracks of page `page`,
`start_idx = page * MAX_RESULTS_PER_PAGE`, `end_idx = start_idx +
MAX_RESULTS_PER_PAGE`, `page_tracks = tracks[start_idx:end_idx]`. -/
def showPageTracks (tracks : List Track) (page pageSize : Nat) : List Track :=
  pySlice tracks (page * pageSize) (page * pageSize + pageSize)

theorem totalPages_le_iff (n ps m : Nat) (h : 0 < ps) :
    totalPages n ps ≤ m ↔ n ≤ m * ps := by
  unfold totalPages
  rw [Nat.div_le_iff_le_mul_add_pred h]
  have hc : ps * m = m * ps := Nat.mul_comm ps m
  omega

/-- Claim C2: the stored `total_pages` equals `⌈N / page_size⌉`, and
displaying page `n` shows exactly the slice
`tracks[n*page_size : (n+1)*page_size]`. -/
theorem C2_pagination (n ps page : Nat) (tracks : List Track) (h : 0 < ps) :
    totalPages n ps = Nat.ceil ((n : ℚ) / (ps : ℚ)) ∧
    showPageTracks tracks page ps = pySlice tracks (page * ps) ((page + 1) * ps) := by
  constructor
  · have hps : (0 : ℚ) < (ps : ℚ) := by exact_mod_cast h
    have key : ∀ m : Nat, totalPages n ps ≤ m ↔ Nat.ceil ((n : ℚ) / (ps : ℚ)) ≤ m := by
      intro m
      rw [totalPages_le_iff n ps m h, Nat.ceil_le, div_le_iff₀ hps]
      exact_mod_cast Iff.rfl
    exact le_antisymm ((key _).mpr le_rfl) ((key _).mp le_rfl)
  · have hidx : (page + 1) * ps = page * ps + ps := by ring
    rw [showPageTracks, hidx]

def tWitness : Track :=
  { id := "id", title := "t", artist := "a", duration := 1, url := "u" }

theorem C2_pagination_witness :
    (totalPages 25 10 = Nat.ceil ((25 : ℚ) / (10 : ℚ)) ∧
      showPageTracks (List.replicate 25 tWitness) 2 10 =
        pySlice (List.replicate 25 tWitness) (2 * 10) ((2 + 1) * 10)) ∧
    totalPages 25 10 = 3 ∧
    (showPageTracks (List.replicate 25 tWitness) 2 10).length = 5 :=
  ⟨C2_pagination 25 10 2 (List.replicate 25 tWitness) (by decide),
    by decide, by simp [showPageTracks, pySlice]⟩

/-! ### Dictionary primitives -/

/-- Python `del d[k]` on an association-list dict: the (unique) entry
with key `k` disappears, all other entries keep their order. -/
def delKey [DecidableEq κ] (l : List (κ × α)) (k : κ) : List (κ × α) :=
  l.filter (fun e => !(e.1 == k))

/-- Python `k in d`. -/
def containsKey [DecidableEq κ] (l : List (κ × α)) (k : κ) : Bool :=
  decide (k ∈ l.map Prod.fst)

/-- Python `d.get(k)` / `d[k]`. -/
def lookupKey [DecidableEq κ] (l : List (κ × α)) (k : κ) : Option α :=
  (l.find? (fun e => e.1 == k)).map Prod.snd

theorem containsKey_delKey [DecidableEq κ] (l : List (κ × α)) (k : κ) :
    containsKey (delKey l k) k = false := by
  have hmem : k ∉ (delKey l k).map Prod.fst := by
    intro hmem
    rcases List.mem_map.mp hmem with ⟨e, he, hk⟩
    have hp := List.of_mem_filter he
    rw [hk] at hp
    simp at hp
  simpa [containsKey] using hmem

/-! ### C9: search-cache eviction (handlers/search.py, lines 232-241) -/

/-- handlers/search.py, lines 236-240:
if `len(search_cache) > 1000`, take `list(search_cache.keys())[:500]`
and `del` each of those keys.  Polymorphic in the entry type; the bot
instantiates it with `String` keys and `CacheData` values. -/
def cleanupSearchCache [DecidableEq κ] (cache : List (κ × α)) : List (κ × α) :=
  if cache.length > 1000 then
    ((cache.map Prod.fst).take 500).foldl (fun c k => delKey c k) cache
  else cache

theorem foldl_delKey_take [DecidableEq κ] (n : Nat) :
    ∀ (l : List (κ × α)), (l.map Prod.fst).Nodup →
      ((l.map Prod.fst).take n).foldl (fun c k => delKey c k) l = l.drop n := by
  induction n with
  | zero => intro l _; simp
  | succ n ih =>
    intro l hl
    match l with
    | [] => simp
    | e :: rest =>
      have hl' : (e.1 :: rest.map Prod.fst).Nodup := hl
      have hnotin : e.1 ∉ rest.map Prod.fst := (List.nodup_cons.mp hl').1
      have hhead : delKey (e :: rest) e.1 = rest := by
        have : rest.filter (fun x => !(x.1 == e.1)) = rest := by
          apply List.filter_eq_self.mpr
          intro x hx
          have : x.1 ≠ e.1 := by
            intro hEq
            exact hnotin (hEq ▸ List.mem_map_of_mem Prod.fst hx)
          simpa using this
        simpa [delKey] using this
      have htail : (rest.map Prod.fst).Nodup := (List.nodup_cons.mp hl').2
      simp only [List.map_cons, List.take_succ_cons, List.foldl_cons, hhead,
        List.drop_succ_cons]
      exact ih rest htail

/-- Claim C9: when the cache holds more than 1000 entries, the eviction
pass removes exactly the 500 insertion-order-oldest entries and leaves
the remaining entries unchanged; at or below 1000 entries it removes
nothing. -/
theorem C9_cache_eviction [DecidableEq κ] (cache : List (κ × α))
    (hnd : (cache.map Prod.fst).Nodup) :
    (cache.length > 1000 → cleanupSearchCache cache = cache.drop 500) ∧
    (cache.length ≤ 1000 → cleanupSearchCache cache = cache) := by
  constructor
  · intro hlen
    rw [cleanupSearchCache, if_pos hlen]
    exact foldl_delKey_take 500 cache hnd
  · intro hlen
    rw [cleanupSearchCache, if_neg (by omega)]

def bigCacheWitness : List (Nat × Unit) :=
  (List.range 1001).map (fun i => (i, ()))

theorem C9_cache_eviction_witness :
    cleanupSearchCache bigCacheWitness = bigCacheWitness.drop 500 :=
  (C9_cache_eviction bigCacheWitness
      (by
        have hkeys : bigCacheWitness.map Prod.fst = List.range 1001 := by
          rw [bigCacheWitness, List.map_map]
          show List.map (fun i => i) (List.range 1001) = List.range 1001
          simp
        rw [hkeys]
        exact List.nodup_range 1001)).1
    (by simp [bigCacheWitness])

/-! ### String primitives

Python `str.startswith` and `str.split("::", 2)` are modelled on the
character lists underlying `String`, with structural recursion so that
concrete instances evaluate inside the kernel. -/

/-- Python `s.startswith(p)`. -/
def strStartsWith (s p : String) : Bool :=
  List.isPrefixOf p.data s.data

/-- Split a character list at every (leftmost-first, non-overlapping)
occurrence of the two-character separator `::`, Python
`str.split("::")`. -/
def splitTokens : List Char → List (List Char)
  | [] => [[]]
  | ':' :: ':' :: rest => [] :: splitTokens rest
  | c :: rest =>
    match splitTokens rest with
    | [] => [[c]]
    | h :: t => (c :: h) :: t

/-- Python `data.split("::", 2)`: at most two splits, the remainder is
kept intact (separators re-joined). -/
def pySplit2 (data : String) : List String :=
  match splitTokens data.data with
  | a :: b :: c :: rest =>
    [String.mk a, String.mk b, String.mk (List.intercalate [':', ':'] (c :: rest))]
  | parts => parts.map String.mk

/-! ### C3: track buttons and cache resolution -/

/-- utils/keyboards.py, lines 59-61: the button's
`callback_data = "download::" + source + "::" + track_id` with
`track_id = track.get('id', i)`. -/
def trackCallbackData (source : String) (t : Track) : String :=
  "download::" ++ source ++ "::" ++ t.id

/-- handlers/download.py, lines 26-33: `callback.data.split("::", 2)`,
rejected unless it yields three parts; parts 1 and 2 are the source and
the track id. -/
def parseDownloadCallback (data : String) : Option (String × String) :=
  match pySplit2 data with
  | [_, src, tid] => some (src, tid)
  | _ => none

/-- handlers/download.py, lines 123-127: a cached track matches the
requested id when `str(track.get('id', ''))` or
`str(track.get('page_index', ''))` equals it. -/
def trackMatches (trackId : String) (t : Track) : Bool :=
  t.id == trackId ||
    (match t.pageIndex with
      | some i => toString i == trackId
      | none => "" == trackId)

/-- handlers/download.py, line 120: the `f"{user_id}_{source}_"` key
prefix selecting the user's cache entries for one source. -/
def cacheKeyStart (userId : Nat) (source : String) : String :=
  toString userId ++ "_" ++ source ++ "_"

/-- handlers/download.py, lines 115-132: scan the whole search cache in
insertion order; inside each entry of this (user, source) pair, return
the first track whose id or page_index matches. -/
def findTrackInCache (cache : List (String × CacheData)) (userId : Nat)
    (source trackId : String) : Option Track :=
  match cache with
  | [] => none
  | (k, d) :: rest =>
    if strStartsWith k (cacheKeyStart userId source) && d.source == source then
      match d.tracks.find? (trackMatches trackId) with
      | some t => some t
      | none => findTrackInCache rest userId source trackId
    else
      findTrackInCache rest userId source trackId

/-- The tracks `find_track_in_cache` scans, in scan order. -/
def candidateTracks (cache : List (String × CacheData)) (userId : Nat)
    (source : String) : List Track :=
  (cache.filter
      (fun e => strStartsWith e.1 (cacheKeyStart userId source) && e.2.source == source)).flatMap
    (fun e => e.2.tracks)

theorem findTrackInCache_eq_find (cache : List (String × CacheData)) (userId : Nat)
    (source trackId : String) :
    findTrackInCache cache userId source trackId =
      (candidateTracks cache userId source).find? (trackMatches trackId) := by
  induction cache with
  | nil => rfl
  | cons e rest ih =>
    obtain ⟨k, d⟩ := e
    rw [findTrackInCache]
    by_cases hsel : (strStartsWith k (cacheKeyStart userId source) && d.source == source) = true
    · rw [if_pos hsel]
      have hcand : candidateTracks ((k, d) :: rest) userId source =
          d.tracks ++ candidateTracks rest userId source := by
        simp [candidateTracks, List.filter_cons, hsel]
      rw [hcand, List.find?_append]
      cases hfind : d.tracks.find? (trackMatches trackId) with
      | none => simpa using ih
      | some t => simp
    · rw [if_neg (by simpa using hsel)]
      have hcand : candidateTracks ((k, d) :: rest) userId source =
          candidateTracks rest userId source := by
        simp [candidateTracks, List.filter_cons, hsel]
      rw [hcand]
      exact ih

theorem trackMatches_self (t : Track) : trackMatches t.id t = true := by
  simp [trackMatches]

theorem find_first_unique {p : Track → Bool} {l : List Track} {t : Track}
    (hmem : t ∈ l) (hself : p t = true)
    (huniq : ∀ t' ∈ l, p t' = true → t' = t) :
    l.find? p = some t := by
  induction l with
  | nil => cases hmem
  | cons a rest ih =>
    by_cases ha : p a = true
    · have : a = t := huniq a (List.mem_cons_self a rest) ha
      rw [List.find?_cons_of_pos _ ha, this]
    · rw [List.find?_cons_of_neg _ ha]
      have hmem' : t ∈ rest := by
        rcases List.mem_cons.mp hmem with h | h
        · exact absurd (h ▸ hself) ha
        · exact h
      exact ih hmem' (fun t' ht' hp => huniq t' (List.mem_cons_of_mem a ht') hp)

/-- Claim C3 (amended): resolving a button scans the user's cache
entries for the source in insertion order and returns the *first* track
whose id or page_index string equals the id embedded in the button; the
round trip yields the identical cached track exactly when no other
scanned track matches that id. -/
theorem C3_roundtrip_amended (cache : List (String × CacheData)) (userId : Nat)
    (source : String) (t : Track)
    (hmem : t ∈ candidateTracks cache userId source)
    (huniq : ∀ t' ∈ candidateTracks cache userId source,
      trackMatches t.id t' = true → t' = t) :
    findTrackInCache cache userId source t.id = some t := by
  rw [findTrackInCache_eq_find]
  exact find_first_unique hmem (trackMatches_self t) huniq

/-- Counterexample to claim C3 as stated: in a single cache entry for
user 1 and source "youtube", the first track `cxTrackA` has been shown
on page 0 (so its `page_index` is 0) and the second track `cxTrackB` has
id "0".  The button built for `cxTrackB` carries the action token
`download::youtube::0`; resolving it returns `cxTrackA`, not the track
the button was built from. -/
def cxTrackA : Track :=
  { id := "zzz", title := "A", artist := "aa", duration := 100, url := "ua",
    pageIndex := some 0 }

def cxTrackB : Track :=
  { id := "0", title := "B", artist := "bb", duration := 200, url := "ub",
    pageIndex := some 1 }

def cxCache : List (String × CacheData) :=
  [("1_youtube_q",
    { tracks := [cxTrackA, cxTrackB], source := "youtube", query := "q",
      total_pages := 1 })]

theorem C3_roundtrip_counterexample :
    parseDownloadCallback (trackCallbackData "youtube" cxTrackB) =
      some ("youtube", cxTrackB.id) ∧
    findTrackInCache cxCache 1 "youtube" cxTrackB.id = some cxTrackA ∧
    cxTrackA ≠ cxTrackB := by
  refine ⟨by decide, by decide, by decide⟩

def rtCache : List (String × CacheData) :=
  [("1_youtube_q",
    { tracks := [cxTrackA, cxTrackB], source := "youtube", query := "q",
      total_pages := 1 })]

theorem C3_roundtrip_amended_witness :
    findTrackInCache rtCache 1 "youtube" cxTrackA.id = some cxTrackA :=
  C3_roundtrip_amended rtCache 1 "youtube" cxTrackA (by decide) (by decide)

/-! ### C1: single-flight download registries -/

/-- Status of an audio download entry (handlers/download.py uses the
strings "downloading" and "cancelled"). -/
inductive DLStatus where
  | downloading
  | cancelled
  deriving DecidableEq

/-- One value of `active_downloads` (handlers/download.py, lines
53-57). -/
structure DownloadEntry where
  user_id : Nat
  track_info : Track
  status : DLStatus
  deriving DecidableEq

/-- handlers/download.py, line 37:
`download_key = f"{user_id}_{source}_{track_id}"`. -/
def downloadKey (userId : Nat) (source trackId : String) : String :=
  toString userId ++ "_" ++ source ++ "_" ++ trackId

/-- The user-visible answer of `handle_download_request`. -/
inductive DLResponse where
  | alreadyInProgress
  | trackNotFound
  | started
  deriving DecidableEq

/-- handlers/download.py, lines 36-76 (the registry-relevant part of
`handle_download_request`): reject when the key already has an entry,
reject when the track is not in the search cache, otherwise insert a
fresh "downloading" entry and start the background task. -/
def handleDownloadRequest (reg : List (String × DownloadEntry))
    (cache : List (String × CacheData)) (userId : Nat) (source trackId : String) :
    List (String × DownloadEntry) × DLResponse :=
  let key := downloadKey userId source trackId
  if containsKey reg key then (reg, .alreadyInProgress)
  else
    match findTrackInCache cache userId source trackId with
    | none => (reg, .trackNotFound)
    | some t => (reg ++ [(key, ⟨userId, t, .downloading⟩)], .started)

/-- One value of `video_cache` (handlers/video.py, lines 68-70); only
the fields the handlers read are kept. -/
structure VideoInfo where
  id : String
  title : String
  deriving DecidableEq

/-- handlers/video.py, lines 148 and 161: both the video cache key and
the video download key are `f"{user_id}_{video_id}"`. -/
def videoCacheKey (userId : Nat) (videoId : String) : String :=
  toString userId ++ "_" ++ videoId

/-- The user-visible answer of `handle_quality_selection`. -/
inductive VideoResponse where
  | staleInfo
  | alreadyInProgress
  | started
  deriving DecidableEq

/-- handlers/video.py, lines 140-182 (the registry-relevant part of
`handle_quality_selection`): look the video up in `video_cache`, reject
when `active_video_downloads` already holds the key, otherwise insert
`{"cancelled": False}` (modelled as `false`) and start the download. -/
def handleQualitySelection (vcache : List (String × VideoInfo))
    (vreg : List (String × Bool)) (userId : Nat) (videoId : String) :
    List (String × Bool) × VideoResponse :=
  let key := videoCacheKey userId videoId
  match lookupKey vcache key with
  | none => (vreg, .staleInfo)
  | some _ =>
    if containsKey vreg key then (vreg, .alreadyInProgress)
    else (vreg ++ [(key, false)], .started)

theorem nodup_append_fresh [DecidableEq κ] (l : List (κ × α)) (k : κ) (v : α)
    (hnd : (l.map Prod.fst).Nodup) (hfresh : containsKey l k = false) :
    ((l ++ [(k, v)]).map Prod.fst).Nodup := by
  have hk : k ∉ l.map Prod.fst := by simpa [containsKey] using hfresh
  rw [List.map_append, List.nodup_append]
  refine ⟨hnd, by simp, ?_⟩
  intro a ha hb
  have hak : a = k := by simpa using hb
  exact hk (hak ▸ ha)

/-- Claim C1: per (user, source, track) key at most one active download
entry exists: a trigger whose key is already registered is rejected with
the "already in progress" answer and leaves the registry untouched, and
every trigger preserves key-uniqueness of the registry.  The same holds
for the video flow's `active_video_downloads`. -/
theorem C1_single_active_download (reg : List (String × DownloadEntry))
    (cache : List (String × CacheData)) (vcache : List (String × VideoInfo))
    (vreg : List (String × Bool)) (userId : Nat) (source trackId videoId : String) :
    (containsKey reg (downloadKey userId source trackId) = true →
      handleDownloadRequest reg cache userId source trackId = (reg, .alreadyInProgress)) ∧
    ((reg.map Prod.fst).Nodup →
      ((handleDownloadRequest reg cache userId source trackId).1.map Prod.fst).Nodup) ∧
    ((lookupKey vcache (videoCacheKey userId videoId)).isSome = true →
      containsKey vreg (videoCacheKey userId videoId) = true →
      handleQualitySelection vcache vreg userId videoId = (vreg, .alreadyInProgress)) ∧
    ((vreg.map Prod.fst).Nodup →
      ((handleQualitySelection vcache vreg userId videoId).1.map Prod.fst).Nodup) := by
  refine ⟨?_, ?_, ?_, ?_⟩
  · intro hin
    rw [handleDownloadRequest]
    simp [hin]
  · intro hnd
    rw [handleDownloadRequest]
    by_cases hin : containsKey reg (downloadKey userId source trackId) = true
    · simp [hin, hnd]
    · have hfresh : containsKey reg (downloadKey userId source trackId) = false := by
        simpa using hin
      cases hfind : findTrackInCache cache userId source trackId with
      | none => simp [hfresh, hfind, hnd]
      | some t =>
        simp only [hfresh, hfind, Bool.false_eq_true, if_false]
        exact nodup_append_fresh reg _ _ hnd hfresh
  · intro hcache hin
    rw [handleQualitySelection]
    cases hlook : lookupKey vcache (videoCacheKey userId videoId) with
    | none => rw [hlook] at hcache; simp at hcache
    | some vi => simp [hin]
  · intro hnd
    rw [handleQualitySelection]
    cases hlook : lookupKey vcache (videoCacheKey userId videoId) with
    | none => simpa using hnd
    | some vi =>
      by_cases hin : containsKey vreg (videoCacheKey userId videoId) = true
      · simpa [hin] using hnd
      · have hfresh : containsKey vreg (videoCacheKey userId videoId) = false := by
          simpa using hin
        simp only [hfresh, Bool.false_eq_true, if_false]
        exact nodup_append_fresh vreg _ _ hnd hfresh

def c1Entry : DownloadEntry :=
  { user_id := 1, track_info := tWitness, status := .downloading }

def c1Reg : List (String × DownloadEntry) :=
  [(downloadKey 1 "youtube" "id", c1Entry)]

def c1VCache : List (String × VideoInfo) :=
  [(videoCacheKey 1 "vid", { id := "vid", title := "v" })]

def c1VReg : List (String × Bool) :=
  [(videoCacheKey 1 "vid", false)]

theorem C1_single_active_download_witness :
    handleDownloadRequest c1Reg [] 1 "youtube" "id" = (c1Reg, .alreadyInProgress) ∧
    ((handleDownloadRequest c1Reg [] 1 "youtube" "id").1.map Prod.fst).Nodup ∧
    handleQualitySelection c1VCache c1VReg 1 "vid" = (c1VReg, .alreadyInProgress) ∧
    ((handleQualitySelection c1VCache c1VReg 1 "vid").1.map Prod.fst).Nodup := by
  have h := C1_single_active_download c1Reg [] c1VCache c1VReg 1 "youtube" "id" "vid"
  exact ⟨h.1 (by decide), h.2.1 (by decide), h.2.2.1 (by decide) (by decide),
    h.2.2.2 (by decide)⟩

/-! ### C4 / C5: search dispatch and the VK adapter -/

/-- The configured VK credentials (config.py is not in the sources; a
field is `some` when the corresponding environment variable is a
non-empty string, matching Python truthiness at vk_service.py, lines
23 and 32). -/
structure VKCreds where
  token : Option String
  login : Option String
  password : Option String

/-- The authentication state `VKMusicService.__init__` leaves behind
(vk_service.py, lines 14-55). -/
structure VKState where
  is_authenticated : Bool
  auth_error_message : Option String
  deriving DecidableEq

/-- vk_service.py, lines 21-55: token wins, then login/password (whose
network authentication may fail with the given error), otherwise the
"VK credentials not configured" state. -/
def vkInit (creds : VKCreds) (loginAuthError : Option String) : VKState :=
  match creds.token with
  | some _ => { is_authenticated := true, auth_error_message := none }
  | none =>
    match creds.login, creds.password with
    | some _, some _ =>
      match loginAuthError with
      | none => { is_authenticated := true, auth_error_message := none }
      | some e =>
        { is_authenticated := false,
          auth_error_message := some ("Authentication failed: " ++ e) }
    | _, _ =>
      { is_authenticated := false,
        auth_error_message := some "VK credentials not configured" }

/-- vk_service.py, lines 104-123: `VKMusicService.search` returns `[]`
when unauthenticated, `[]` when the underlying API call raises, and the
formatted track list otherwise.  Note that it returns a plain list in
every case. -/
def vkSearch (st : VKState) (apiResult : Except Unit (List Track)) : List Track :=
  if st.is_authenticated = false then []
  else
    match apiResult with
    | .error _ => []
    | .ok tracks => tracks

/-- A Python value flowing through `perform_search`'s dynamically typed
returns: a list of track dicts, a single track dict, a string, or
`None`. -/
inductive PyVal where
  | list (ts : List Track)
  | track (t : Track)
  | str (s : String)
  | pyNone
  deriving DecidableEq

/-- Python truthiness of the values above (a track dict is non-empty,
hence truthy). -/
def isTruthy : PyVal → Bool
  | .list [] => false
  | .list (_ :: _) => true
  | .track _ => true
  | .str s => s ≠ ""
  | .pyNone => false

/-- The exception escaping `perform_search` (its `except` clause
re-raises). -/
inductive SearchExc where
  | valueError
  deriving DecidableEq

/-- Python tuple unpacking `a, b = xs` of a list: succeeds only when
the list has exactly two elements, otherwise raises `ValueError`. -/
def listUnpack2 (ts : List Track) : Except SearchExc (PyVal × PyVal) :=
  match ts with
  | [a, b] => .ok (.track a, .track b)
  | _ => .error .valueError

/-- What the outside world returns to the individual adapters during
one search. -/
structure SearchEnv where
  ytResult : List Track
  ytMusicResult : List Track
  scResult : List Track
  vkCreds : VKCreds
  vkLoginAuthError : Option String
  vkApiResult : Except Unit (List Track)

/-- handlers/search.py, lines 146-183 (`perform_search`): dispatch on
the source string.  For "vk_music" the handler checks authentication
first and otherwise evaluates
`tracks, error_details = await service.search(query)` — but
`VKMusicService.search` returns a plain list, so that unpacking raises
`ValueError` unless the list happens to have exactly two elements; the
`except` clause re-raises. -/
def performSearch (env : SearchEnv) (source : String) :
    Except SearchExc (PyVal × PyVal) :=
  if source == "youtube" then .ok (.list env.ytResult, .pyNone)
  else if source == "youtube_music" then .ok (.list env.ytMusicResult, .pyNone)
  else if source == "soundcloud" then .ok (.list env.scResult, .pyNone)
  else if source == "vk_music" then
    let st := vkInit env.vkCreds env.vkLoginAuthError
    if st.is_authenticated = false then
      .ok (.list [], .str ("VK Music: " ++ st.auth_error_message.getD "None"))
    else
      listUnpack2 (vkSearch st env.vkApiResult)
  else .ok (.list [], .pyNone)

/-- The user-visible outcome of `handle_source_selection`. -/
inductive SourceSelOutcome where
  | notFoundMessage
  | resultsShown
  | unknownErrorMessage
  deriving DecidableEq

/-- handlers/search.py, lines 81-113: an exception from
`perform_search` becomes the generic "unknown error" message; a falsy
`tracks` becomes the "not found" message; otherwise results are cached
and shown. -/
def handleSourceSelection (env : SearchEnv) (source : String) : SourceSelOutcome :=
  match performSearch env source with
  | .error _ => .unknownErrorMessage
  | .ok (tracks, _errDetails) =>
    if isTruthy tracks then .resultsShown else .notFoundMessage

/-- The environment of claim C4's failing input: VK credentials are
configured (token present), and the VK API call returns zero tracks. -/
def vkEmptyEnv : SearchEnv :=
  { ytResult := [], ytMusicResult := [], scResult := [],
    vkCreds := { token := some "tok", login := none, password := none },
    vkLoginAuthError := none, vkApiResult := .ok [] }

/-- Claim C4 fails on the code: an authenticated VK search returning
zero tracks raises `ValueError` while unpacking the list into
`(tracks, error_details)`, so the user sees the generic "unknown error"
message instead of the "not found" message.  The other sources do reach
the "not found" message on empty results, and no path crashes the
handler. -/
theorem C4_not_found_bug :
    handleSourceSelection vkEmptyEnv "vk_music" = .unknownErrorMessage ∧
    handleSourceSelection vkEmptyEnv "vk_music" ≠ .notFoundMessage ∧
    handleSourceSelection vkEmptyEnv "youtube" = .notFoundMessage ∧
    handleSourceSelection vkEmptyEnv "youtube_music" = .notFoundMessage ∧
    handleSourceSelection vkEmptyEnv "soundcloud" = .notFoundMessage := by
  refine ⟨by decide, by decide, by decide, by decide, by decide⟩

/-- Claim C5: with neither a token nor login/password configured, the
VK search path returns the empty result list together with the non-null
descriptive error string, and raises nothing (the result is `.ok`),
whatever the rest of the environment does. -/
theorem C5_no_credentials (ytR ytmR scR : List Track)
    (apiR : Except Unit (List Track)) (laErr : Option String) :
    performSearch
        { ytResult := ytR, ytMusicResult := ytmR, scResult := scR,
          vkCreds := { token := none, login := none, password := none },
          vkLoginAuthError := laErr, vkApiResult := apiR } "vk_music" =
      .ok (.list [], .str "VK Music: VK credentials not configured") := by
  rfl

/-! ### C7: out-of-range pages are a no-op -/

/-- The user-visible outcome of `show_search_results`. -/
inductive ShowOutcome where
  | staleMessage
  | noOp
  | pageShown
  deriving DecidableEq

/-- handlers/search.py, lines 210-211: each displayed track dict gets
`track['page_index'] = start_idx + i` written into the cached list. -/
def setPageIndices (tracks : List Track) (start pageSize : Nat) : List Track :=
  tracks.mapIdx (fun i t =>
    if start ≤ i ∧ i < start + pageSize then { t with pageIndex := some i } else t)

/-- Replace the value stored under key `k` (Python `d[k] = v`). -/
def updateEntry (cache : List (String × CacheData)) (k : String) (d : CacheData) :
    List (String × CacheData) :=
  cache.map (fun e => if e.1 == k then (e.1, d) else e)

/-- handlers/search.py, lines 185-229 (`show_search_results`): missing
cache key edits the message to a "stale results" error; a page outside
`[0, total_pages)` returns without touching anything; otherwise the
page's tracks get their `page_index` set and the message is edited to
the page. -/
def showSearchResults (cache : List (String × CacheData)) (key : String)
    (page : Int) (pageSize : Nat) : List (String × CacheData) × ShowOutcome :=
  match lookupKey cache key with
  | none => (cache, .staleMessage)
  | some d =>
    if page < 0 ∨ (d.total_pages : Int) ≤ page then (cache, .noOp)
    else
      let start := page.toNat * pageSize
      (updateEntry cache key { d with tracks := setPageIndices d.tracks start pageSize },
        .pageShown)

/-- Claim C7: for a cached search, requesting a page outside
`[0, total_pages)` is a no-op: the cache (and hence the displayed
message) is left unchanged and no error outcome is produced. -/
theorem C7_out_of_range_noop (cache : List (String × CacheData)) (key : String)
    (page : Int) (pageSize : Nat) (d : CacheData)
    (hk : lookupKey cache key = some d)
    (hp : page < 0 ∨ (d.total_pages : Int) ≤ page) :
    showSearchResults cache key page pageSize = (cache, .noOp) := by
  rw [showSearchResults, hk]
  simp [hp]

def c7Cache : List (String × CacheData) :=
  [("1_youtube_q",
    { tracks := [tWitness], source := "youtube", query := "q", total_pages := 1 })]

theorem C7_out_of_range_noop_witness :
    showSearchResults c7Cache "1_youtube_q" 5 10 = (c7Cache, .noOp) :=
  C7_out_of_range_noop c7Cache "1_youtube_q" 5 10
    { tracks := [tWitness], source := "youtube", query := "q", total_pages := 1 }
    (by decide) (by decide)

/-! ### C8: progress-update throttling (handlers/video.py) -/

/-- handlers/video.py, line 31. -/
def PROGRESS_UPDATE_INTERVAL : ℚ := 3

/-- handlers/video.py, lines 246-254 (`update_progress_message`),
folded over a run of "downloading" progress callbacks (the only kind
`progress_callback` forwards, lines 293-300): a callback whose
processing time is within the interval of the last forwarded one is
dropped, otherwise `last_update_time` is set to the current time and
the message edit is performed.  The returned list holds the times of
the performed edits, in order. -/
def progressEdits (last : ℚ) : List ℚ → List ℚ
  | [] => []
  | t :: rest =>
    if t - last < PROGRESS_UPDATE_INTERVAL then progressEdits last rest
    else t :: progressEdits t rest

theorem progressEdits_ge (last : ℚ) (ts : List ℚ) :
    ∀ e ∈ progressEdits last ts, last + PROGRESS_UPDATE_INTERVAL ≤ e := by
  induction ts generalizing last with
  | nil => intro e he; cases he
  | cons t rest ih =>
    intro e he
    rw [progressEdits] at he
    by_cases h : t - last < PROGRESS_UPDATE_INTERVAL
    · rw [if_pos h] at he
      exact ih last e he
    · rw [if_neg h] at he
      push_neg at h
      have hI : (0 : ℚ) ≤ PROGRESS_UPDATE_INTERVAL := by
        norm_num [PROGRESS_UPDATE_INTERVAL]
      rcases List.mem_cons.mp he with rfl | he'
      · linarith
      · have := ih t e he'
        linarith

/-- Claim C8: between any two performed progress edits of one download
at least `PROGRESS_UPDATE_INTERVAL` (3 seconds) elapse, and a callback
arriving within the interval of the last forwarded update is dropped
without changing the throttle state. -/
theorem C8_progress_throttle (last : ℚ) (ts : List ℚ) :
    (progressEdits last ts).Pairwise
      (fun a b => a + PROGRESS_UPDATE_INTERVAL ≤ b) ∧
    (∀ t rest, t - last < PROGRESS_UPDATE_INTERVAL →
      progressEdits last (t :: rest) = progressEdits last rest) := by
  constructor
  · induction ts generalizing last with
    | nil => exact List.Pairwise.nil
    | cons t rest ih =>
      rw [progressEdits]
      by_cases h : t - last < PROGRESS_UPDATE_INTERVAL
      · rw [if_pos h]
        exact ih last
      · rw [if_neg h]
        exact List.Pairwise.cons (progressEdits_ge t rest) (ih t)
  · intro t rest h
    rw [progressEdits, if_pos h]

theorem C8_progress_throttle_witness :
    progressEdits 0 [(1 : ℚ), 2] = progressEdits 0 [2] :=
  (C8_progress_throttle 0 []).2 1 [2] (by norm_num [PROGRESS_UPDATE_INTERVAL])

/-! ### C10: the audio cancel action selects by user id -/

/-- The user-visible answer of `handle_cancel_download`
(handlers/download.py). -/
inductive CancelResponse where
  | cancelledMessage
  | noActiveMessage
  deriving DecidableEq

/-- handlers/download.py, lines 92-97: scan `active_downloads` in
insertion order and take the key of the first entry whose `user_id`
matches the requesting user. -/
def findUserDownloadKey (reg : List (String × DownloadEntry)) (userId : Nat) :
    Option String :=
  (reg.find? (fun e => e.2.user_id == userId)).map Prod.fst

/-- Python `active_downloads[k]['status'] = 'cancelled'`: rewrite the
status of the entry stored under key `k`. -/
def setStatusByKey (reg : List (String × DownloadEntry)) (k : String)
    (st : DLStatus) : List (String × DownloadEntry) :=
  reg.map (fun e => if e.1 == k then (e.1, { e.2 with status := st }) else e)

/-- handlers/download.py, lines 87-113 (`handle_cancel_download`): if
some entry of the requesting user exists, mark the first one cancelled
and report success, otherwise report that nothing is active. -/
def handleCancelDownload (reg : List (String × DownloadEntry)) (userId : Nat) :
    List (String × DownloadEntry) × CancelResponse :=
  match findUserDownloadKey reg userId with
  | some k => (setStatusByKey reg k .cancelled, .cancelledMessage)
  | none => (reg, .noActiveMessage)

/-- Claim C10, stated in its own words: mark as cancelled exactly the
first entry in insertion order whose `user_id` equals the requesting
user, leaving every other entry (and, if the user has no entry, the
whole registry) unchanged. -/
def cancelFirstOfUser (reg : List (String × DownloadEntry)) (userId : Nat) :
    List (String × DownloadEntry) :=
  match reg with
  | [] => []
  | e :: rest =>
    if e.2.user_id == userId then (e.1, { e.2 with status := .cancelled }) :: rest
    else e :: cancelFirstOfUser rest userId

theorem setStatusByKey_of_not_mem (reg : List (String × DownloadEntry))
    (k : String) (st : DLStatus) (hk : k ∉ reg.map Prod.fst) :
    setStatusByKey reg k st = reg := by
  induction reg with
  | nil => rfl
  | cons e rest ih =>
    have hne : ¬(e.1 = k) := fun h => hk (by simp [h])
    have htail : k ∉ rest.map Prod.fst := fun h => hk (List.mem_cons_of_mem _ h)
    simp only [setStatusByKey, List.map_cons]
    rw [if_neg (by simpa using hne)]
    simpa [setStatusByKey] using ih htail

/-- Claim C10: the audio cancel action selects its target by `user_id`
alone; under dict-key uniqueness it behaves exactly like
`cancelFirstOfUser`, and when the user owns no entry it reports "no
active downloads" and leaves the registry untouched. -/
theorem C10_cancel_by_user (reg : List (String × DownloadEntry)) (userId : Nat)
    (hnd : (reg.map Prod.fst).Nodup) :
    (handleCancelDownload reg userId).1 = cancelFirstOfUser reg userId ∧
    ((∀ e ∈ reg, e.2.user_id ≠ userId) →
      handleCancelDownload reg userId = (reg, .noActiveMessage)) := by
  constructor
  · induction reg with
    | nil => rfl
    | cons e rest ih =>
      have hl' : (e.1 :: rest.map Prod.fst).Nodup := hnd
      have hnotin : e.1 ∉ rest.map Prod.fst := (List.nodup_cons.mp hl').1
      have htail : (rest.map Prod.fst).Nodup := (List.nodup_cons.mp hl').2
      by_cases hu : (e.2.user_id == userId) = true
      · have hfind : List.find? (fun x => x.2.user_id == userId) (e :: rest) =
            some e := by
          simp [List.find?_cons, hu]
        rw [handleCancelDownload, findUserDownloadKey, hfind]
        rw [cancelFirstOfUser, if_pos hu]
        show setStatusByKey (e :: rest) e.1 .cancelled =
          (e.1, { e.2 with status := DLStatus.cancelled }) :: rest
        simp only [setStatusByKey, List.map_cons]
        rw [if_pos (by simp)]
        rw [show (rest.map fun x =>
            if x.1 == e.1 then (x.1, { x.2 with status := DLStatus.cancelled }) else x) =
            setStatusByKey rest e.1 .cancelled from rfl]
        rw [setStatusByKey_of_not_mem rest e.1 .cancelled hnotin]
      · have hskip : List.find? (fun x => x.2.user_id == userId) (e :: rest) =
            List.find? (fun x => x.2.user_id == userId) rest := by
          simp [List.find?_cons, hu]
        rw [handleCancelDownload, findUserDownloadKey, hskip]
        rw [cancelFirstOfUser, if_neg hu]
        cases hfind : rest.find? (fun x => x.2.user_id == userId) with
        | none =>
          have hrest := ih htail
          rw [handleCancelDownload, findUserDownloadKey, hfind] at hrest
          show e :: rest = e :: cancelFirstOfUser rest userId
          rw [← hrest]
          rfl
        | some f =>
          have hfmem : f ∈ rest := List.mem_of_find?_eq_some hfind
          have hfk : f.1 ∈ rest.map Prod.fst := List.mem_map_of_mem Prod.fst hfmem
          have hne : ¬(e.1 = f.1) := fun h => hnotin (h ▸ hfk)
          have hrest := ih htail
          rw [handleCancelDownload, findUserDownloadKey, hfind] at hrest
          show setStatusByKey (e :: rest) f.1 .cancelled =
            e :: cancelFirstOfUser rest userId
          simp only [setStatusByKey, List.map_cons]
          rw [if_neg (by simpa using hne)]
          rw [show (rest.map fun x =>
              if x.1 == f.1 then (x.1, { x.2 with status := DLStatus.cancelled }) else x) =
              setStatusByKey rest f.1 .cancelled from rfl]
          rw [show setStatusByKey rest f.1 DLStatus.cancelled =
              cancelFirstOfUser rest userId from hrest]
  · intro hnone
    have hfind : reg.find? (fun e => e.2.user_id == userId) = none := by
      rw [List.find?_eq_none]
      intro e he
      simpa using hnone e he
    rw [handleCancelDownload, findUserDownloadKey, hfind]
    rfl

def c10Entry2 : DownloadEntry :=
  { user_id := 2, track_info := tWitness, status := .downloading }

def c10Reg : List (String × DownloadEntry) :=
  [("2_youtube_x", c10Entry2)]

theorem C10_cancel_by_user_witness :
    (handleCancelDownload c10Reg 1).1 = cancelFirstOfUser c10Reg 1 ∧
    handleCancelDownload c10Reg 1 = (c10Reg, .noActiveMessage) :=
  have h := C10_cancel_by_user c10Reg 1 (by decide)
  ⟨h.1, h.2 (by decide)⟩

/-! ### C6: guaranteed cleanup of download tasks -/

/-- Python `active_downloads[download_key]['status']`, when the key is
present. -/
def statusOf (reg : List (String × DownloadEntry)) (k : String) : Option DLStatus :=
  (lookupKey reg k).map DownloadEntry.status

/-- What `service.download(track_info, file_path)` did: raised, returned
`False` (optionally leaving a partial file at the target path), or
returned `True` (file written). -/
inductive DLOutcome where
  | raised
  | failed
  | succeeded
  deriving DecidableEq

/-- The environment of one run of `download_and_send_track`
(handlers/download.py, lines 134-247): whether `get_download_service`
found a service for the source, the adapter download outcome, whether a
failed download left a partial file at `file_path`, the file size
against the configured cap, whether a cancel was processed during the
download `await` (setting this key's status to `cancelled`), and
whether sending the audio raised. -/
structure AudioTaskEnv where
  serviceAvailable : Bool
  outcome : DLOutcome
  leftoverFile : Bool
  fileSize : Nat
  maxBytes : Nat
  midCancel : Bool
  sendRaises : Bool

/-- handlers/download.py, lines 136-234: everything before the
`finally` block.  Returns the registry, the file system (a list of
existing paths) and whether `file_path` has been assigned (it stays
Python `None` until line 159, so the early returns at lines 139-150
leave it unset).  The branches after a successful download (size cap,
second cancel check, sending) differ only in messages, never in the
registry or the file system. -/
def audioTaskBody (env : AudioTaskEnv) (reg : List (String × DownloadEntry))
    (fs : List String) (key filePath : String) :
    List (String × DownloadEntry) × List String × Bool :=
  if containsKey reg key = false ∨ statusOf reg key = some .cancelled then
    (reg, fs, false)
  else if env.serviceAvailable = false then (reg, fs, false)
  else
    let reg1 := setStatusByKey reg key .downloading
    let reg2 := if env.midCancel then setStatusByKey reg1 key .cancelled else reg1
    match env.outcome with
    | .raised => (reg2, if env.leftoverFile then filePath :: fs else fs, true)
    | .failed => (reg2, if env.leftoverFile then filePath :: fs else fs, true)
    | .succeeded => (reg2, filePath :: fs, true)

/-- handlers/download.py, lines 236-247: the `finally` block removes the
file at `file_path` when one was assigned and exists, and deletes the
registry entry. -/
def audioTaskCleanup (assigned : Bool) (filePath : String)
    (reg : List (String × DownloadEntry)) (fs : List String) (key : String) :
    List (String × DownloadEntry) × List String :=
  (delKey reg key,
    if assigned = true ∧ filePath ∈ fs then fs.erase filePath else fs)

/-- handlers/download.py, lines 134-247: the whole task, body then
`finally`. -/
def downloadAndSendTrack (env : AudioTaskEnv) (reg : List (String × DownloadEntry))
    (fs : List String) (key filePath : String) :
    List (String × DownloadEntry) × List String :=
  audioTaskCleanup (audioTaskBody env reg fs key filePath).2.2 filePath
    (audioTaskBody env reg fs key filePath).1
    (audioTaskBody env reg fs key filePath).2.1 key

/-- The environment of one run of `download_and_send_video`
(handlers/video.py, lines 240-422): the `(file_path, error)` pair the
service returned (`(None, "CANCELLED")` on cooperative cancellation),
the file size against the cap, and whether sending raised.  None of the
branches between the download and the `finally` block touch the
registry or the file system. -/
structure VideoTaskEnv where
  dlPath : Option String
  dlError : Option String
  fileSize : Nat
  maxBytes : Nat
  sendRaises : Bool

/-- handlers/video.py, lines 302-322: the service download writes the
returned path (when there is one) into the scratch directory. -/
def videoTaskFile (dlPath : Option String) (fs : List String) : List String :=
  match dlPath with
  | some p => p :: fs
  | none => fs

/-- handlers/video.py, lines 411-418: the `finally` block removes the
file at the returned path if it exists. -/
def videoTaskCleanupFs (dlPath : Option String) (fs : List String) : List String :=
  match dlPath with
  | some p => if p ∈ fs then fs.erase p else fs
  | none => fs

/-- handlers/video.py, lines 240-422: the whole video task — the
branches between download and `finally` (cancel message, size cap,
sending, success message) never touch the registry or the file system,
and the `finally` block (lines 411-422) deletes the
`active_video_downloads` entry. -/
def downloadAndSendVideo (env : VideoTaskEnv) (vreg : List (String × Bool))
    (fs : List String) (key : String) : List (String × Bool) × List String :=
  (delKey vreg key, videoTaskCleanupFs env.dlPath (videoTaskFile env.dlPath fs))

theorem audioTaskBody_fs (env : AudioTaskEnv) (reg : List (String × DownloadEntry))
    (fs : List String) (key filePath : String) :
    (audioTaskBody env reg fs key filePath).2.1 = fs ∨
      (audioTaskBody env reg fs key filePath).2.2 = true ∧
        (audioTaskBody env reg fs key filePath).2.1 = filePath :: fs := by
  rw [audioTaskBody]
  by_cases h1 : containsKey reg key = false ∨ statusOf reg key = some .cancelled
  · rw [if_pos h1]
    exact Or.inl rfl
  · rw [if_neg h1]
    by_cases h2 : env.serviceAvailable = false
    · rw [if_pos h2]
      exact Or.inl rfl
    · rw [if_neg h2]
      cases ho : env.outcome with
      | raised =>
        cases hp : env.leftoverFile with
        | true =>
          right
          constructor <;> simp
        | false =>
          left
          simp
      | failed =>
        cases hp : env.leftoverFile with
        | true =>
          right
          constructor <;> simp
        | false =>
          left
          simp
      | succeeded => exact Or.inr ⟨rfl, rfl⟩

/-- Claim C6: on every terminal outcome of a download task — success,
failure, exception, cancellation before or during the transfer — the
cleanup step deletes the task's registry entry and leaves no file at
the task's download path (assuming the path was fresh when the task
started); a task that finds its entry already marked cancelled also
leaves the file system untouched.  The video flow's task gives the same
guarantees for the path its service returned. -/
theorem C6_cleanup_always (env : AudioTaskEnv) (venv : VideoTaskEnv)
    (reg : List (String × DownloadEntry)) (vreg : List (String × Bool))
    (fs vfs : List String) (key filePath vkey : String)
    (hfresh : filePath ∉ fs) (hvfresh : ∀ p, venv.dlPath = some p → p ∉ vfs) :
    (containsKey (downloadAndSendTrack env reg fs key filePath).1 key = false ∧
      filePath ∉ (downloadAndSendTrack env reg fs key filePath).2 ∧
      (statusOf reg key = some .cancelled →
        (downloadAndSendTrack env reg fs key filePath).2 = fs)) ∧
    (containsKey (downloadAndSendVideo venv vreg vfs vkey).1 vkey = false ∧
      ∀ p, venv.dlPath = some p →
        p ∉ (downloadAndSendVideo venv vreg vfs vkey).2) := by
  refine ⟨⟨?_, ?_, ?_⟩, ?_, ?_⟩
  · rw [downloadAndSendTrack, audioTaskCleanup]
    exact containsKey_delKey _ key
  · rw [downloadAndSendTrack, audioTaskCleanup]
    rcases audioTaskBody_fs env reg fs key filePath with hbody | ⟨hassigned, hbody⟩
    · rw [hbody]
      rw [if_neg (fun h => hfresh h.2)]
      exact hfresh
    · rw [hbody, hassigned]
      rw [if_pos ⟨rfl, List.mem_cons_self filePath fs⟩]
      rw [List.erase_cons_head]
      exact hfresh
  · intro hcanc
    rw [downloadAndSendTrack]
    rw [show audioTaskBody env reg fs key filePath = (reg, fs, false) from by
      rw [audioTaskBody, if_pos (Or.inr hcanc)]]
    rw [audioTaskCleanup]
    rw [if_neg (fun h => by simpa using h.1)]
  · rw [downloadAndSendVideo]
    exact containsKey_delKey _ vkey
  · intro p hp
    rw [downloadAndSendVideo]
    show p ∉ videoTaskCleanupFs venv.dlPath (videoTaskFile venv.dlPath vfs)
    rw [hp, videoTaskFile, videoTaskCleanupFs]
    rw [if_pos (List.mem_cons_self p vfs)]
    rw [List.erase_cons_head]
    exact hvfresh p hp

def c6Env : AudioTaskEnv :=
  { serviceAvailable := true, outcome := .succeeded, leftoverFile := false,
    fileSize := 1, maxBytes := 2, midCancel := false, sendRaises := false }

def c6VEnv : VideoTaskEnv :=
  { dlPath := some "v.mp4", dlError := none, fileSize := 1, maxBytes := 2,
    sendRaises := false }

def c6Reg : List (String × DownloadEntry) :=
  [("1_youtube_id", c1Entry)]

theorem C6_cleanup_always_witness :
    (containsKey (downloadAndSendTrack c6Env c6Reg [] "1_youtube_id" "a.mp3").1
        "1_youtube_id" = false ∧
      "a.mp3" ∉ (downloadAndSendTrack c6Env c6Reg [] "1_youtube_id" "a.mp3").2 ∧
      (statusOf c6Reg "1_youtube_id" = some .cancelled →
        (downloadAndSendTrack c6Env c6Reg [] "1_youtube_id" "a.mp3").2 = [])) ∧
    (containsKey (downloadAndSendVideo c6VEnv [("1_vid", false)] [] "1_vid").1
        "1_vid" = false ∧
      ∀ p, c6VEnv.dlPath = some p →
        p ∉ (downloadAndSendVideo c6VEnv [("1_vid", false)] [] "1_vid").2) :=
  C6_cleanup_always c6Env c6VEnv c6Reg [("1_vid", false)] [] [] "1_youtube_id"
    "a.mp3" "1_vid" (List.not_mem_nil "a.mp3") (fun p _ => List.not_mem_nil p)

end CoverBot
